import Mathlib

/-!
Shallow embedding of the `tx` payment-engine account state machine.

Source of truth: `src/client.rs` (module `ClientAccount`), plus the inlined
copy of the same state machine in `src/main.rs` (embedded below with the
`main_` prefix).  Amounts are `rust_decimal::Decimal` values with scale at
most 4: addition, subtraction and comparison on such values are exact, so we
model amounts as integers (think: fixed-point units of 10^-4).  The
`HashMap<u32, TransactionType>` of processed transactions is modelled as a
`Finmap` over ℕ, the `HashSet<u32>` of transactions under dispute as a
`Finset ℕ`: both Rust containers are unordered with extensional equality.
Rust's `&mut self` handlers returning `Result<(), ClientErr>` are embedded
in state-passing style: each handler returns the pair of the `Result` and
the account state as left by the mutations executed before returning, so
that "no mutation on the error path" is a theorem, not a modelling choice.
-/

/-- `TransactionType` from `src/types.rs` (identical in `src/main.rs`):
the closed set of five operation variants.  `client` ids are `u16`, `tx`
ids are `u32`; both are embedded as ℕ (only equality of ids matters). -/
inductive TransactionType where
  | Deposit (client : ℕ) (tx : ℕ) (amount : ℤ)
  | Withdrawal (client : ℕ) (tx : ℕ) (amount : ℤ)
  | Dispute (client : ℕ) (tx : ℕ)
  | Resolve (client : ℕ) (tx : ℕ)
  | Chargeback (client : ℕ) (tx : ℕ)
deriving DecidableEq, Repr

namespace TransactionType

/-- `TransactionType::client_id` from `src/types.rs`. -/
def client_id : TransactionType → ℕ
  | .Deposit client _ _ => client
  | .Withdrawal client _ _ => client
  | .Dispute client _ => client
  | .Resolve client _ => client
  | .Chargeback client _ => client

/-- `TransactionType::transaction_id` from `src/types.rs`. -/
def transaction_id : TransactionType → ℕ
  | .Deposit _ tx _ => tx
  | .Withdrawal _ tx _ => tx
  | .Dispute _ tx => tx
  | .Resolve _ tx => tx
  | .Chargeback _ tx => tx

end TransactionType

/-- `ClientErr` from `src/client.rs` (identical in `src/main.rs`). -/
inductive ClientErr where
  | AccountLocked
  | InsufficientFunds
  | DisputedTransactionNotFound
  | AlreadyProcessed
deriving DecidableEq, Repr

/-- `ClientAccount` from `src/client.rs` (same fields in `src/main.rs`). -/
structure ClientAccount where
  client : ℕ
  available : ℤ
  held : ℤ
  total : ℤ
  locked : Bool
  processed_tx : Finmap (fun _ : ℕ => TransactionType)
  under_dispute : Finset ℕ
deriving DecidableEq

namespace ClientAccount

/-- `ClientAccount::new`: zero balances, unlocked, empty history. -/
def new (client : ℕ) : ClientAccount :=
  { client := client
    available := 0
    held := 0
    total := 0
    locked := false
    processed_tx := ∅
    under_dispute := ∅ }

/-- `ClientAccount::is_locked`. -/
def is_locked (a : ClientAccount) : Bool := a.locked

/-- `ClientAccount::handle_deposit` from `src/client.rs` lines 72-83. -/
def handle_deposit (a : ClientAccount) (tx : ℕ) (amount : ℤ) :
    Except ClientErr Unit × ClientAccount :=
  if tx ∈ a.processed_tx then
    (.error .AlreadyProcessed, a)
  else
    (.ok (), { a with available := a.available + amount, total := a.total + amount })

/-- `ClientAccount::handle_withdraw` from `src/client.rs` lines 85-98. -/
def handle_withdraw (a : ClientAccount) (tx : ℕ) (amount : ℤ) :
    Except ClientErr Unit × ClientAccount :=
  if tx ∈ a.processed_tx then
    (.error .AlreadyProcessed, a)
  else if a.available < amount then
    (.error .InsufficientFunds, a)
  else
    (.ok (), { a with available := a.available - amount, total := a.total - amount })

/-- `ClientAccount::handle_dispute` from `src/client.rs` lines 100-122:
reject a transaction already under dispute, look the id up in the history,
and move the amount from `available` to `held` only when it names a deposit. -/
def handle_dispute (a : ClientAccount) (tx : ℕ) :
    Except ClientErr Unit × ClientAccount :=
  if tx ∈ a.under_dispute then
    (.error .AlreadyProcessed, a)
  else
    match a.processed_tx.lookup tx with
    | none => (.error .DisputedTransactionNotFound, a)
    | some t =>
      match t with
      | .Deposit c txF amount =>
          (.ok (), { a with
            available := a.available - amount
            held := a.held + amount
            under_dispute :=
              insert (TransactionType.Deposit c txF amount).transaction_id
                a.under_dispute })
      | _ => (.ok (), a)

/-- `ClientAccount::handle_resolve` from `src/client.rs` lines 124-143.
`HashSet::remove` both erases the id and reports whether it was present;
the erase is a no-op when the id is absent, which the embedding mirrors. -/
def handle_resolve (a : ClientAccount) (tx : ℕ) :
    Except ClientErr Unit × ClientAccount :=
  match a.processed_tx.lookup tx with
  | none => (.error .DisputedTransactionNotFound, a)
  | some disputed_tx =>
    if disputed_tx.transaction_id ∈ a.under_dispute then
      let a1 : ClientAccount :=
        { a with under_dispute := a.under_dispute.erase disputed_tx.transaction_id }
      match disputed_tx with
      | .Deposit _ _ amount =>
          (.ok (), { a1 with available := a1.available + amount, held := a1.held - amount })
      | _ => (.ok (), a1)
    else
      (.error .DisputedTransactionNotFound,
       { a with under_dispute := a.under_dispute.erase disputed_tx.transaction_id })

/-- `ClientAccount::handle_chargeback` from `src/client.rs` lines 145-165. -/
def handle_chargeback (a : ClientAccount) (tx : ℕ) :
    Except ClientErr Unit × ClientAccount :=
  match a.processed_tx.lookup tx with
  | none => (.error .DisputedTransactionNotFound, a)
  | some disputed_tx =>
    if disputed_tx.transaction_id ∈ a.under_dispute then
      let a1 : ClientAccount :=
        { a with under_dispute := a.under_dispute.erase disputed_tx.transaction_id }
      match disputed_tx with
      | .Deposit _ _ amount =>
          (.ok (), { a1 with
            held := a1.held - amount
            total := a1.total - amount
            locked := true })
      | _ => (.ok (), a1)
    else
      (.error .DisputedTransactionNotFound,
       { a with under_dispute := a.under_dispute.erase disputed_tx.transaction_id })

/-- `ClientAccount::process_transaction` from `src/client.rs` lines 46-70:
locked accounts reject everything; deposits/withdrawals are recorded in
`processed_tx` after their handler succeeds; the dispute family delegates. -/
def process_transaction (a : ClientAccount) (t : TransactionType) :
    Except ClientErr Unit × ClientAccount :=
  if a.is_locked then
    (.error .AccountLocked, a)
  else
    match t with
    | .Deposit _ tx_id amount =>
      match a.handle_deposit tx_id amount with
      | (.error e, a1) => (.error e, a1)
      | (.ok _, a1) => (.ok (), { a1 with processed_tx := a1.processed_tx.insert tx_id t })
    | .Withdrawal _ tx_id amount =>
      match a.handle_withdraw tx_id amount with
      | (.error e, a1) => (.error e, a1)
      | (.ok _, a1) => (.ok (), { a1 with processed_tx := a1.processed_tx.insert tx_id t })
    | .Dispute _ tx => a.handle_dispute tx
    | .Resolve _ tx => a.handle_resolve tx
    | .Chargeback _ tx => a.handle_chargeback tx

/-- `ClientAccount::handle_deposit` from `src/main.rs` lines 168-175:
the inlined copy has no duplicate check of its own. -/
def main_handle_deposit (a : ClientAccount) (amount : ℤ) :
    Except ClientErr Unit × ClientAccount :=
  (.ok (), { a with available := a.available + amount, total := a.total + amount })

/-- `ClientAccount::handle_withdraw` from `src/main.rs` lines 177-186. -/
def main_handle_withdraw (a : ClientAccount) (amount : ℤ) :
    Except ClientErr Unit × ClientAccount :=
  if a.available < amount then
    (.error .InsufficientFunds, a)
  else
    (.ok (), { a with available := a.available - amount, total := a.total - amount })

/-- `ClientAccount::handle_dispute` from `src/main.rs` lines 188-204:
unlike the module version it does not check `under_dispute` first. -/
def main_handle_dispute (a : ClientAccount) (tx : ℕ) :
    Except ClientErr Unit × ClientAccount :=
  match a.processed_tx.lookup tx with
  | none => (.error .DisputedTransactionNotFound, a)
  | some t =>
    match t with
    | .Deposit c txF amount =>
        (.ok (), { a with
          available := a.available - amount
          held := a.held + amount
          under_dispute :=
            insert (TransactionType.Deposit c txF amount).transaction_id
              a.under_dispute })
    | _ => (.ok (), a)

/-- `ClientAccount::process_transaction` from `src/main.rs` lines 146-166:
the inlined copy checks the operation's own `transaction_id` against
`processed_tx` for all five kinds, and records every successful operation
(including the dispute family) in `processed_tx`.  Its `handle_resolve` and
`handle_chargeback` (lines 206-247) are textually identical to the module
versions, so those embeddings are reused. -/
def main_process_transaction (a : ClientAccount) (t : TransactionType) :
    Except ClientErr Unit × ClientAccount :=
  if a.is_locked then
    (.error .AccountLocked, a)
  else if t.transaction_id ∈ a.processed_tx then
    (.error .AlreadyProcessed, a)
  else
    let step : Except ClientErr Unit × ClientAccount :=
      match t with
      | .Deposit _ _ amount => a.main_handle_deposit amount
      | .Withdrawal _ _ amount => a.main_handle_withdraw amount
      | .Dispute _ tx => a.main_handle_dispute tx
      | .Resolve _ tx => a.handle_resolve tx
      | .Chargeback _ tx => a.handle_chargeback tx
    match step with
    | (.error e, a1) => (.error e, a1)
    | (.ok _, a1) =>
        (.ok (), { a1 with processed_tx := a1.processed_tx.insert t.transaction_id t })

end ClientAccount

/-- The router's per-account replay (`PaymentEngine::process_transaction`
forwards each operation and drops the error): final state after a stream. -/
def apply_all (a : ClientAccount) (ts : List TransactionType) : ClientAccount :=
  ts.foldl (fun s t => (s.process_transaction t).2) a

/-- Replay through the module state machine, keeping both the per-operation
results and the final state. -/
def run_client (a : ClientAccount) :
    List TransactionType → List (Except ClientErr Unit) × ClientAccount
  | [] => ([], a)
  | t :: ts =>
    let r := a.process_transaction t
    let rest := run_client r.2 ts
    (r.1 :: rest.1, rest.2)

/-- Replay through the inlined `src/main.rs` state machine. -/
def run_main (a : ClientAccount) :
    List TransactionType → List (Except ClientErr Unit) × ClientAccount
  | [] => ([], a)
  | t :: ts =>
    let r := a.main_process_transaction t
    let rest := run_main r.2 ts
    (r.1 :: rest.1, rest.2)

/-- The balance invariant of §3 of the spec: `total == available + held`. -/
def TotalInv (a : ClientAccount) : Prop := a.total = a.available + a.held

/-! ### Helper lemmas shared by several claims -/

/-- A locked account rejects every operation unchanged. -/
theorem locked_rejects (a : ClientAccount) (t : TransactionType) (h : a.locked = true) :
    a.process_transaction t = (.error .AccountLocked, a) := by
  unfold ClientAccount.process_transaction
  simp [ClientAccount.is_locked, h]

/-- Effect of disputing a recorded deposit on an unlocked account. -/
theorem dispute_deposit_eq (a : ClientAccount) (c c' txId : ℕ) (A : ℤ)
    (hl : a.locked = false) (hnd : txId ∉ a.under_dispute)
    (hp : a.processed_tx.lookup txId = some (.Deposit c' txId A)) :
    a.process_transaction (.Dispute c txId)
      = (.ok (), { a with
          available := a.available - A
          held := a.held + A
          under_dispute := insert txId a.under_dispute }) := by
  unfold ClientAccount.process_transaction ClientAccount.handle_dispute
  simp [ClientAccount.is_locked, hl, hnd, hp, TransactionType.transaction_id]

/-- Effect of resolving a disputed deposit on an unlocked account. -/
theorem resolve_deposit_eq (a : ClientAccount) (c c' txId : ℕ) (A : ℤ)
    (hl : a.locked = false) (hd : txId ∈ a.under_dispute)
    (hp : a.processed_tx.lookup txId = some (.Deposit c' txId A)) :
    a.process_transaction (.Resolve c txId)
      = (.ok (), { a with
          available := a.available + A
          held := a.held - A
          under_dispute := a.under_dispute.erase txId }) := by
  unfold ClientAccount.process_transaction ClientAccount.handle_resolve
  simp [ClientAccount.is_locked, hl, hd, hp, TransactionType.transaction_id]

/-- Effect of charging back a disputed deposit on an unlocked account. -/
theorem chargeback_deposit_eq (a : ClientAccount) (c c' txId : ℕ) (A : ℤ)
    (hl : a.locked = false) (hd : txId ∈ a.under_dispute)
    (hp : a.processed_tx.lookup txId = some (.Deposit c' txId A)) :
    a.process_transaction (.Chargeback c txId)
      = (.ok (), { a with
          held := a.held - A
          total := a.total - A
          locked := true
          under_dispute := a.under_dispute.erase txId }) := by
  unfold ClientAccount.process_transaction ClientAccount.handle_chargeback
  simp [ClientAccount.is_locked, hl, hd, hp, TransactionType.transaction_id]

/-- No handler mutates the state on an error: `handle_deposit`. -/
theorem handle_deposit_err (a : ClientAccount) (tx : ℕ) (amount : ℤ) (e : ClientErr) :
    (a.handle_deposit tx amount).1 = .error e → (a.handle_deposit tx amount).2 = a := by
  unfold ClientAccount.handle_deposit
  split <;> simp

/-- No handler mutates the state on an error: `handle_withdraw`. -/
theorem handle_withdraw_err (a : ClientAccount) (tx : ℕ) (amount : ℤ) (e : ClientErr) :
    (a.handle_withdraw tx amount).1 = .error e → (a.handle_withdraw tx amount).2 = a := by
  unfold ClientAccount.handle_withdraw
  split <;> [simp; split <;> simp]

/-- No handler mutates the state on an error: `handle_dispute`. -/
theorem handle_dispute_err (a : ClientAccount) (tx : ℕ) (e : ClientErr) :
    (a.handle_dispute tx).1 = .error e → (a.handle_dispute tx).2 = a := by
  unfold ClientAccount.handle_dispute
  split
  · simp
  · split
    · simp
    · split <;> simp

/-- No handler mutates the state on an error: `handle_resolve`.  The failed
`HashSet::remove` of an absent id leaves the set unchanged. -/
theorem handle_resolve_err (a : ClientAccount) (tx : ℕ) (e : ClientErr) :
    (a.handle_resolve tx).1 = .error e → (a.handle_resolve tx).2 = a := by
  unfold ClientAccount.handle_resolve
  split
  · simp
  · split
    · split <;> simp
    · rename_i hnm
      simp [Finset.erase_eq_self.mpr hnm]

/-- No handler mutates the state on an error: `handle_chargeback`. -/
theorem handle_chargeback_err (a : ClientAccount) (tx : ℕ) (e : ClientErr) :
    (a.handle_chargeback tx).1 = .error e → (a.handle_chargeback tx).2 = a := by
  unfold ClientAccount.handle_chargeback
  split
  · simp
  · split
    · split <;> simp
    · rename_i hnm
      simp [Finset.erase_eq_self.mpr hnm]

/-- Errors of the full dispatcher leave the account untouched. -/
theorem process_err_eq (a : ClientAccount) (t : TransactionType) (e : ClientErr) :
    (a.process_transaction t).1 = .error e → (a.process_transaction t).2 = a := by
  cases t with
  | Deposit c tx amount =>
      simp only [ClientAccount.process_transaction]
      split
      · intro _; rfl
      · intro h
        split at h
        · rename_i e' a1 heq
          have := handle_deposit_err a tx amount e'
          rw [heq] at this
          simpa using this rfl
        · simp at h
  | Withdrawal c tx amount =>
      simp only [ClientAccount.process_transaction]
      split
      · intro _; rfl
      · intro h
        split at h
        · rename_i e' a1 heq
          have := handle_withdraw_err a tx amount e'
          rw [heq] at this
          simpa using this rfl
        · simp at h
  | Dispute c tx =>
      simp only [ClientAccount.process_transaction]
      split
      · intro _; rfl
      · exact handle_dispute_err a tx e
  | Resolve c tx =>
      simp only [ClientAccount.process_transaction]
      split
      · intro _; rfl
      · exact handle_resolve_err a tx e
  | Chargeback c tx =>
      simp only [ClientAccount.process_transaction]
      split
      · intro _; rfl
      · exact handle_chargeback_err a tx e

/-- Single-step preservation of the balance invariant. -/
theorem process_preserves_TotalInv (a : ClientAccount) (t : TransactionType)
    (h : TotalInv a) : TotalInv (a.process_transaction t).2 := by
  unfold TotalInv at *
  cases t with
  | Deposit c tx amount =>
      simp only [ClientAccount.process_transaction]
      split
      · exact h
      · split
        · rename_i e' a1 heq
          have herr := handle_deposit_err a tx amount e'
          rw [heq] at herr
          have ha1 : a1 = a := herr rfl
          rw [ha1]
          exact h
        · rename_i u a1 heq
          unfold ClientAccount.handle_deposit at heq
          split at heq
          · exact absurd heq (by simp)
          · injection heq with h1 h2
            subst h2
            simp only
            omega
  | Withdrawal c tx amount =>
      simp only [ClientAccount.process_transaction]
      split
      · exact h
      · split
        · rename_i e' a1 heq
          have herr := handle_withdraw_err a tx amount e'
          rw [heq] at herr
          have ha1 : a1 = a := herr rfl
          rw [ha1]
          exact h
        · rename_i u a1 heq
          unfold ClientAccount.handle_withdraw at heq
          split at heq
          · exact absurd heq (by simp)
          · split at heq
            · exact absurd heq (by simp)
            · injection heq with h1 h2
              subst h2
              simp only
              omega
  | Dispute c tx =>
      simp only [ClientAccount.process_transaction, ClientAccount.handle_dispute]
      split
      · exact h
      · split
        · exact h
        · split
          · exact h
          · rename_i t' heq
            cases t' <;> first | exact h | (simp only; omega)
  | Resolve c tx =>
      simp only [ClientAccount.process_transaction, ClientAccount.handle_resolve]
      split
      · exact h
      · split
        · exact h
        · rename_i t' heq
          split
          · cases t' <;> first | exact h | (simp only; omega)
          · exact h
  | Chargeback c tx =>
      simp only [ClientAccount.process_transaction, ClientAccount.handle_chargeback]
      split
      · exact h
      · split
        · exact h
        · rename_i t' heq
          split
          · cases t' <;> first | exact h | (simp only; omega)
          · exact h

/-- The invariant propagates along any replayed stream. -/
theorem apply_all_preserves_TotalInv (ts : List TransactionType) :
    ∀ a : ClientAccount, TotalInv a → TotalInv (apply_all a ts) := by
  induction ts with
  | nil => intro a h; exact h
  | cons t ts ih =>
      intro a h
      exact ih _ (process_preserves_TotalInv a t h)

/-- Two accounts with equal fields are equal. -/
theorem ClientAccount.eq_of_fields (x y : ClientAccount)
    (h1 : x.client = y.client) (h2 : x.available = y.available)
    (h3 : x.held = y.held) (h4 : x.total = y.total) (h5 : x.locked = y.locked)
    (h6 : x.processed_tx = y.processed_tx) (h7 : x.under_dispute = y.under_dispute) :
    x = y := by
  cases x
  cases y
  simp_all

/-- Effect of a fresh deposit on an unlocked account. -/
theorem deposit_ok_eq (a : ClientAccount) (c txId : ℕ) (A : ℤ)
    (hl : a.locked = false) (hnp : txId ∉ a.processed_tx) :
    a.process_transaction (.Deposit c txId A)
      = (.ok (), { a with
          available := a.available + A
          total := a.total + A
          processed_tx := a.processed_tx.insert txId (.Deposit c txId A) }) := by
  simp [ClientAccount.process_transaction, ClientAccount.handle_deposit,
    ClientAccount.is_locked, hl, hnp]

/-- Effect of a fresh, sufficiently funded withdrawal on an unlocked account. -/
theorem withdraw_ok_eq (a : ClientAccount) (c txId : ℕ) (A : ℤ)
    (hl : a.locked = false) (hnp : txId ∉ a.processed_tx)
    (hav : ¬a.available < A) :
    a.process_transaction (.Withdrawal c txId A)
      = (.ok (), { a with
          available := a.available - A
          total := a.total - A
          processed_tx := a.processed_tx.insert txId (.Withdrawal c txId A) }) := by
  simp [ClientAccount.process_transaction, ClientAccount.handle_withdraw,
    ClientAccount.is_locked, hl, hnp, hav]

/-! ### Claims -/

/-- C1: for every account and every sequence of operations applied through
the state machine (errors skipped, as the router does), the account always
satisfies `total == available + held`. -/
theorem C1_total_eq_available_add_held (client : ℕ) (ts : List TransactionType) :
    TotalInv (apply_all (ClientAccount.new client) ts) :=
  apply_all_preserves_TotalInv ts _ (by simp [TotalInv, ClientAccount.new])

/-- C2: on an unlocked account, disputing a transaction recorded as a deposit
of amount A, not already under dispute, succeeds, moves exactly A from
`available` to `held` with `total` untouched, and adds the id to `under_dispute`. -/
theorem C2_dispute_moves_deposit_to_held (a : ClientAccount) (c c' txId : ℕ) (A : ℤ)
    (hl : a.locked = false) (hnd : txId ∉ a.under_dispute)
    (hp : a.processed_tx.lookup txId = some (.Deposit c' txId A)) :
    a.process_transaction (.Dispute c txId)
      = (.ok (), { a with
          available := a.available - A
          held := a.held + A
          under_dispute := insert txId a.under_dispute }) :=
  dispute_deposit_eq a c c' txId A hl hnd hp

/-- C2 witness: dispute of the recorded deposit tx 1 of amount 5 on the
account obtained by replaying that deposit on a fresh account. -/
theorem C2_witness :
    (apply_all (ClientAccount.new 1) [.Deposit 1 1 5]).process_transaction (.Dispute 1 1)
      = (.ok (), { apply_all (ClientAccount.new 1) [.Deposit 1 1 5] with
          available := (apply_all (ClientAccount.new 1) [.Deposit 1 1 5]).available - 5
          held := (apply_all (ClientAccount.new 1) [.Deposit 1 1 5]).held + 5
          under_dispute :=
            insert 1 (apply_all (ClientAccount.new 1) [.Deposit 1 1 5]).under_dispute }) :=
  C2_dispute_moves_deposit_to_held (apply_all (ClientAccount.new 1) [.Deposit 1 1 5])
    1 1 1 5 rfl (by decide) rfl

/-- C3: on an unlocked account, charging back a disputed deposit of amount A
succeeds, removes A from `held` and from `total`, removes the id from
`under_dispute`, locks the account, and afterwards every operation fails
with `AccountLocked` leaving every field unchanged. -/
theorem C3_chargeback_finality (a : ClientAccount) (c c' txId : ℕ) (A : ℤ)
    (hl : a.locked = false) (hd : txId ∈ a.under_dispute)
    (hp : a.processed_tx.lookup txId = some (.Deposit c' txId A)) :
    a.process_transaction (.Chargeback c txId)
      = (.ok (), { a with
          held := a.held - A
          total := a.total - A
          locked := true
          under_dispute := a.under_dispute.erase txId })
    ∧ ∀ t : TransactionType,
        ({ a with
            held := a.held - A
            total := a.total - A
            locked := true
            under_dispute := a.under_dispute.erase txId } :
          ClientAccount).process_transaction t
          = (.error .AccountLocked,
             { a with
                held := a.held - A
                total := a.total - A
                locked := true
                under_dispute := a.under_dispute.erase txId }) :=
  ⟨chargeback_deposit_eq a c c' txId A hl hd hp, fun t => locked_rejects _ t rfl⟩

/-- C3 witness: chargeback of the disputed deposit tx 1 of amount 5, after
replaying the deposit and its dispute on a fresh account. -/
theorem C3_witness :
    (apply_all (ClientAccount.new 1)
        [.Deposit 1 1 5, .Dispute 1 1]).process_transaction (.Chargeback 1 1)
      = (.ok (), { apply_all (ClientAccount.new 1) [.Deposit 1 1 5, .Dispute 1 1] with
          held := (apply_all (ClientAccount.new 1) [.Deposit 1 1 5, .Dispute 1 1]).held - 5
          total := (apply_all (ClientAccount.new 1) [.Deposit 1 1 5, .Dispute 1 1]).total - 5
          locked := true
          under_dispute :=
            (apply_all (ClientAccount.new 1)
              [.Deposit 1 1 5, .Dispute 1 1]).under_dispute.erase 1 }) :=
  (C3_chargeback_finality (apply_all (ClientAccount.new 1) [.Deposit 1 1 5, .Dispute 1 1])
    1 1 1 5 rfl (by decide) rfl).1

/-- C4: on an unlocked account holding a recorded deposit of amount A,
resolving it while disputed moves A back from `held` to `available`, keeps
`total`, and removes the id from `under_dispute`; and when it is not yet
disputed, a `Dispute` followed by a `Resolve` returns exactly to the
starting state (so the deposit can be disputed again). -/
theorem C4_resolve_is_dispute_inverse (a : ClientAccount) (c c2 c' txId : ℕ) (A : ℤ)
    (hl : a.locked = false)
    (hp : a.processed_tx.lookup txId = some (.Deposit c' txId A)) :
    (txId ∈ a.under_dispute →
      a.process_transaction (.Resolve c txId)
        = (.ok (), { a with
            available := a.available + A
            held := a.held - A
            under_dispute := a.under_dispute.erase txId }))
    ∧ (txId ∉ a.under_dispute →
      ((a.process_transaction (.Dispute c2 txId)).2).process_transaction (.Resolve c txId)
        = (.ok (), a)) := by
  constructor
  · intro hd
    exact resolve_deposit_eq a c c' txId A hl hd hp
  · intro hnd
    rw [dispute_deposit_eq a c2 c' txId A hl hnd hp]
    dsimp only
    rw [resolve_deposit_eq
      { a with
          available := a.available - A
          held := a.held + A
          under_dispute := insert txId a.under_dispute }
      c c' txId A hl (Finset.mem_insert_self txId a.under_dispute) hp]
    simp only [Prod.mk.injEq, true_and]
    apply ClientAccount.eq_of_fields
    · rfl
    · show a.available - A + A = a.available
      omega
    · show a.held + A - A = a.held
      omega
    · rfl
    · rfl
    · rfl
    · show (insert txId a.under_dispute).erase txId = a.under_dispute
      exact Finset.erase_insert hnd

/-- C4 witness: resolving the disputed deposit tx 1 of amount 5, and the
dispute/resolve round trip from the undisputed state. -/
theorem C4_witness :
    ((apply_all (ClientAccount.new 1) [.Deposit 1 1 5]).process_transaction
        (.Dispute 1 1)).2.process_transaction (.Resolve 1 1)
      = (.ok (), apply_all (ClientAccount.new 1) [.Deposit 1 1 5]) :=
  (C4_resolve_is_dispute_inverse (apply_all (ClientAccount.new 1) [.Deposit 1 1 5])
    1 1 1 1 5 rfl rfl).2 (by decide)

/-- C5: on an unlocked account, disputing a transaction recorded as a
withdrawal returns `Ok` while changing nothing and adding nothing to
`under_dispute`; a subsequent `Resolve` or `Chargeback` of that id fails
with `DisputedTransactionNotFound`, again changing nothing. -/
theorem C5_dispute_withdrawal_is_noop (a : ClientAccount) (c c' txId : ℕ) (A : ℤ)
    (hl : a.locked = false) (hnd : txId ∉ a.under_dispute)
    (hp : a.processed_tx.lookup txId = some (.Withdrawal c' txId A)) :
    a.process_transaction (.Dispute c txId) = (.ok (), a)
    ∧ a.process_transaction (.Resolve c txId)
        = (.error .DisputedTransactionNotFound, a)
    ∧ a.process_transaction (.Chargeback c txId)
        = (.error .DisputedTransactionNotFound, a) := by
  refine ⟨?_, ?_, ?_⟩
  · simp [ClientAccount.process_transaction, ClientAccount.handle_dispute,
      ClientAccount.is_locked, hl, hnd, hp]
  · simp [ClientAccount.process_transaction, ClientAccount.handle_resolve,
      ClientAccount.is_locked, hl, hnd, hp, TransactionType.transaction_id,
      Finset.erase_eq_self.mpr hnd]
    apply ClientAccount.eq_of_fields <;> first | rfl | exact hl.symm
  · simp [ClientAccount.process_transaction, ClientAccount.handle_chargeback,
      ClientAccount.is_locked, hl, hnd, hp, TransactionType.transaction_id,
      Finset.erase_eq_self.mpr hnd]
    apply ClientAccount.eq_of_fields <;> first | rfl | exact hl.symm

/-- C5 witness: disputing the recorded withdrawal tx 2, then resolving and
charging it back, on the account obtained from a deposit and a withdrawal. -/
theorem C5_witness :
    (apply_all (ClientAccount.new 1)
        [.Deposit 1 1 5, .Withdrawal 1 2 3]).process_transaction (.Dispute 1 2)
      = (.ok (), apply_all (ClientAccount.new 1) [.Deposit 1 1 5, .Withdrawal 1 2 3])
    ∧ (apply_all (ClientAccount.new 1)
        [.Deposit 1 1 5, .Withdrawal 1 2 3]).process_transaction (.Resolve 1 2)
      = (.error .DisputedTransactionNotFound,
         apply_all (ClientAccount.new 1) [.Deposit 1 1 5, .Withdrawal 1 2 3])
    ∧ (apply_all (ClientAccount.new 1)
        [.Deposit 1 1 5, .Withdrawal 1 2 3]).process_transaction (.Chargeback 1 2)
      = (.error .DisputedTransactionNotFound,
         apply_all (ClientAccount.new 1) [.Deposit 1 1 5, .Withdrawal 1 2 3]) :=
  C5_dispute_withdrawal_is_noop
    (apply_all (ClientAccount.new 1) [.Deposit 1 1 5, .Withdrawal 1 2 3])
    1 1 2 3 rfl (by decide) rfl

/-- C6: whenever `process_transaction` returns an error, every field of the
account (balances, lock flag, processed map, disputed set) is unchanged. -/
theorem C6_error_leaves_account_unchanged (a : ClientAccount) (t : TransactionType)
    (e : ClientErr) (h : (a.process_transaction t).1 = .error e) :
    (a.process_transaction t).2 = a :=
  process_err_eq a t e h

/-- C6 witness: an insufficient-funds withdrawal on a fresh account leaves
the account exactly as it was. -/
theorem C6_witness :
    ((ClientAccount.new 1).process_transaction (.Withdrawal 1 1 5)).2
      = ClientAccount.new 1 :=
  C6_error_leaves_account_unchanged (ClientAccount.new 1) (.Withdrawal 1 1 5)
    .InsufficientFunds rfl

/-- C7: a deposit or withdrawal that already succeeded is rejected with
`AlreadyProcessed` when replayed, and the replay leaves the account exactly
as it was after the first, successful application. -/
theorem C7_replay_rejected_unchanged (a : ClientAccount) (t : TransactionType)
    (c txId : ℕ) (A : ℤ)
    (ht : t = .Deposit c txId A ∨ t = .Withdrawal c txId A)
    (hl : a.locked = false)
    (hok : (a.process_transaction t).1 = .ok ()) :
    ((a.process_transaction t).2).process_transaction t
      = (.error .AlreadyProcessed, (a.process_transaction t).2) := by
  rcases ht with rfl | rfl
  · by_cases hnp : txId ∈ a.processed_tx
    · have hstep : a.process_transaction (.Deposit c txId A)
          = (.error .AlreadyProcessed, a) := by
        simp [ClientAccount.process_transaction, ClientAccount.handle_deposit,
          ClientAccount.is_locked, hl, hnp]
      rw [hstep] at hok
      simp at hok
    · rw [deposit_ok_eq a c txId A hl hnp]
      dsimp only
      simp [ClientAccount.process_transaction, ClientAccount.handle_deposit,
        ClientAccount.is_locked, hl, Finmap.mem_insert]
  · by_cases hnp : txId ∈ a.processed_tx
    · have hstep : a.process_transaction (.Withdrawal c txId A)
          = (.error .AlreadyProcessed, a) := by
        simp [ClientAccount.process_transaction, ClientAccount.handle_withdraw,
          ClientAccount.is_locked, hl, hnp]
      rw [hstep] at hok
      simp at hok
    · by_cases hav : a.available < A
      · have hstep : a.process_transaction (.Withdrawal c txId A)
            = (.error .InsufficientFunds, a) := by
          simp [ClientAccount.process_transaction, ClientAccount.handle_withdraw,
            ClientAccount.is_locked, hl, hnp, hav]
        rw [hstep] at hok
        simp at hok
      · rw [withdraw_ok_eq a c txId A hl hnp hav]
        dsimp only
        simp [ClientAccount.process_transaction, ClientAccount.handle_withdraw,
          ClientAccount.is_locked, hl, Finmap.mem_insert]

/-- C7 witness: replaying the deposit tx 1 of amount 5 on a fresh account. -/
theorem C7_witness :
    (((ClientAccount.new 1).process_transaction (.Deposit 1 1 5)).2).process_transaction
        (.Deposit 1 1 5)
      = (.error .AlreadyProcessed,
         ((ClientAccount.new 1).process_transaction (.Deposit 1 1 5)).2) :=
  C7_replay_rejected_unchanged (ClientAccount.new 1) (.Deposit 1 1 5) 1 1 5
    (Or.inl rfl) rfl rfl

/-- C8: on an unlocked account, a fresh withdrawal fails with
`InsufficientFunds` exactly when its amount exceeds `available`; failure
changes nothing, and otherwise (equality included) it subtracts the amount
from `available` and `total` and records the transaction. -/
theorem C8_withdrawal_funds_check (a : ClientAccount) (c txId : ℕ) (A : ℤ)
    (hl : a.locked = false) (hnp : txId ∉ a.processed_tx) :
    ((a.process_transaction (.Withdrawal c txId A)).1 = .error .InsufficientFunds
        ↔ a.available < A)
    ∧ (a.available < A → (a.process_transaction (.Withdrawal c txId A)).2 = a)
    ∧ (A ≤ a.available →
        a.process_transaction (.Withdrawal c txId A)
          = (.ok (), { a with
              available := a.available - A
              total := a.total - A
              processed_tx := a.processed_tx.insert txId (.Withdrawal c txId A) })) := by
  by_cases hav : a.available < A
  · have hstep : a.process_transaction (.Withdrawal c txId A)
        = (.error .InsufficientFunds, a) := by
      simp [ClientAccount.process_transaction, ClientAccount.handle_withdraw,
        ClientAccount.is_locked, hl, hnp, hav]
    refine ⟨?_, fun _ => by rw [hstep], fun hle => absurd hav (by omega)⟩
    rw [hstep]
    simp [hav]
  · refine ⟨?_, fun hlt => absurd hlt hav, fun _ => withdraw_ok_eq a c txId A hl hnp hav⟩
    rw [withdraw_ok_eq a c txId A hl hnp hav]
    simp [hav]

/-- C8 witness: a withdrawal of 5 from a fresh (zero-balance) account. -/
theorem C8_witness :
    (((ClientAccount.new 1).process_transaction (.Withdrawal 1 1 5)).1
        = .error .InsufficientFunds ↔ (ClientAccount.new 1).available < 5)
    ∧ ((ClientAccount.new 1).available < 5 →
        ((ClientAccount.new 1).process_transaction (.Withdrawal 1 1 5)).2
          = ClientAccount.new 1)
    ∧ (5 ≤ (ClientAccount.new 1).available →
        (ClientAccount.new 1).process_transaction (.Withdrawal 1 1 5)
          = (.ok (), { ClientAccount.new 1 with
              available := (ClientAccount.new 1).available - 5
              total := (ClientAccount.new 1).total - 5
              processed_tx :=
                (ClientAccount.new 1).processed_tx.insert 1 (.Withdrawal 1 1 5) })) :=
  C8_withdrawal_funds_check (ClientAccount.new 1) 1 1 5 rfl (by decide)

/-- C9: at the input stream Deposit(client 1, tx 1, amount 5) then
Dispute(client 1, tx 1), the inlined `src/main.rs` machine rejects the
dispute as `AlreadyProcessed` — its duplicate check fires on the referenced
deposit id — and moves no funds, while the `src/client.rs` module machine
(whose behavior the spec and the module tests document) accepts the dispute
and holds the 5: the two machines disagree on per-operation results and on
the final `available`/`held`. -/
theorem C9_main_machine_diverges_on_dispute :
    (run_main (ClientAccount.new 1) [.Deposit 1 1 5, .Dispute 1 1]).1
      = [.ok (), .error .AlreadyProcessed]
    ∧ (run_client (ClientAccount.new 1) [.Deposit 1 1 5, .Dispute 1 1]).1
      = [.ok (), .ok ()]
    ∧ (run_main (ClientAccount.new 1) [.Deposit 1 1 5, .Dispute 1 1]).2.available = 5
    ∧ (run_main (ClientAccount.new 1) [.Deposit 1 1 5, .Dispute 1 1]).2.held = 0
    ∧ (run_client (ClientAccount.new 1) [.Deposit 1 1 5, .Dispute 1 1]).2.available = 0
    ∧ (run_client (ClientAccount.new 1) [.Deposit 1 1 5, .Dispute 1 1]).2.held = 5 :=
  ⟨rfl, rfl, by decide, by decide, by decide, by decide⟩

/-- C10: the stream Deposit(tx 1, amount 1); Withdrawal(tx 2, amount 1);
Dispute(tx 1) succeeds at every step yet leaves `available` strictly
negative, and continuing with Chargeback(tx 1) also succeeds and leaves
`total` strictly negative on a locked account: nothing keeps `available`
non-negative when a dispute freezes already-withdrawn funds. -/
theorem C10_dispute_drives_available_negative :
    (run_client (ClientAccount.new 1)
        [.Deposit 1 1 1, .Withdrawal 1 2 1, .Dispute 1 1]).1
      = [.ok (), .ok (), .ok ()]
    ∧ (run_client (ClientAccount.new 1)
        [.Deposit 1 1 1, .Withdrawal 1 2 1, .Dispute 1 1]).2.available < 0
    ∧ (run_client (ClientAccount.new 1)
        [.Deposit 1 1 1, .Withdrawal 1 2 1, .Dispute 1 1, .Chargeback 1 1]).1
      = [.ok (), .ok (), .ok (), .ok ()]
    ∧ (run_client (ClientAccount.new 1)
        [.Deposit 1 1 1, .Withdrawal 1 2 1, .Dispute 1 1, .Chargeback 1 1]).2.total < 0
    ∧ (run_client (ClientAccount.new 1)
        [.Deposit 1 1 1, .Withdrawal 1 2 1, .Dispute 1 1, .Chargeback 1 1]).2.locked
      = true :=
  ⟨rfl, by decide, rfl, by decide, by decide⟩
